import Mathlib

/-!
Verification of the baibaibot order-ladder engine and balance ledger.

The Python source (src/baibaibot) is shallowly embedded over the rationals:
every IEEE-754 float value is modelled as a rational number, and the float
square root used by the ladder engine (math.sqrt) is a parameter
s : Nat -> Rat of the embedded functions, since its exact values are
irrational; where a claim depends on the numerical quality of the square
root, the parameter is constrained by the decidable predicate sqrtAccurate
below.  Python round(x, d) rounds half to even; the embedding uses the
Mathlib round (half away from zero upward), which agrees with it at every
non-tie input, and no input considered here is a tie.

Two source variants of the engine are embedded side by side:
  - the Bot/KrakenAPI variant (bot.py, krakenapi.py): full ticker data,
    reference prices max(ask, vwap, high) and min(bid, vwap, low) in
    bot.py, fixed quote amount on the buy side;
  - the API variant (api.py): minimal ticker data, reference prices high
    and low, vol_percent on both sides, and a per-rung skip guard for
    non-positive buy prices.
-/

namespace Baibaibot

/-- Order side, the "type"/"side" field of orders in the source. -/
inductive Side
  | buy
  | sell
deriving DecidableEq, Repr

/-- Field names of the ticker snapshot, the attributes of ticker.py
Ticker that the per-market minimum map can reference. -/
inductive TickerField
  | ask
  | bid
  | high
  | low
  | vwap
  | opn
  | close
  | vol
deriving DecidableEq, Repr

/-- Price snapshot, from ticker.py class Ticker: ask, bid, 24h high,
24h low, 24h vwap, opening price, last close, 24h volume. -/
structure Ticker where
  ask : ℚ
  bid : ℚ
  high : ℚ
  low : ℚ
  vwap : ℚ
  opn : ℚ
  close : ℚ
  vol : ℚ
deriving DecidableEq, Repr

/-- Attribute access getattr(ticker, k) used by the minimum-field guard. -/
def Ticker.get (t : Ticker) : TickerField → ℚ
  | .ask => t.ask
  | .bid => t.bid
  | .high => t.high
  | .low => t.low
  | .vwap => t.vwap
  | .opn => t.opn
  | .close => t.close
  | .vol => t.vol

/-- Asset pair metadata, from objects.py class AssetPair: base and quote
asset codes and the rounding precisions (lot_decimals/pair_decimals on
Kraken, amount_precision/precision on gate.io). -/
structure AssetPair where
  id : String
  base : String
  quote : String
  dp_base : ℕ
  dp_quote : ℕ
deriving DecidableEq, Repr

/-- Per-asset balance entry: total funds and the unencumbered part. -/
structure Balance where
  total : ℚ
  unencumbered : ℚ
deriving DecidableEq, Repr

/-- The balance ledger self.balances: an association from asset code to
balance, in insertion order. -/
abbrev Balances := List (String × Balance)

/-- Lookup self.balances[asset]; a missing asset yields the zero balance
(the Python dict raises KeyError there; no claim exercises a missing
asset except to model an empty balance as zero). -/
def lookupBal : Balances → String → Balance
  | [], _ => ⟨0, 0⟩
  | (a, b) :: rest, asset => if a = asset then b else lookupBal rest asset

/-- Presence test for an asset in the ledger. -/
def hasAsset : Balances → String → Bool
  | [], _ => false
  | (a, _) :: rest, asset => decide (a = asset) || hasAsset rest asset

/-- Encumbrance: self.balances[asset]["unencumbered"] -= amt
(bot.py lines 148 and 158, krakenapi.py lines 133 and 143). -/
def encumber : Balances → String → ℚ → Balances
  | [], _, _ => []
  | (a, b) :: rest, asset, amt =>
    if a = asset then
      (a, ⟨b.total, b.unencumbered - amt⟩) :: encumber rest asset amt
    else
      (a, b) :: encumber rest asset amt

/-- A resting open order as the Kraken enumeration sees it: side, the
original volume, the executed volume, and the limit price. -/
structure OpenOrder where
  side : Side
  vol : ℚ
  vol_exec : ℚ
  price : ℚ
deriving DecidableEq, Repr

/-- Processing of one discovered open order in Bot.get_open_orders
(bot.py lines 140-164) and KrakenAPI.get_open_orders (krakenapi.py lines
125-149): the remaining volume vol - vol_exec encumbers the quote asset
(times the limit price) for a buy, the base asset for a sell. -/
def krakenEncumberOpenOrder (ap : AssetPair) (bals : Balances) (o : OpenOrder) :
    Balances :=
  let vol := o.vol - o.vol_exec
  match o.side with
  | .buy => encumber bals ap.quote (vol * o.price)
  | .sell => encumber bals ap.base vol

/-- A gate.io open order: side, remaining (left) volume, limit price. -/
structure GateioOrder where
  side : Side
  left : ℚ
  price : ℚ
deriving DecidableEq, Repr

/-- The amount and asset that GateIOAPI.get_open_orders computes for its
debug log line for one open order (gateioapi.py lines 95-116). -/
def gateioOpenOrderLog (ap : AssetPair) (o : GateioOrder) : ℚ × String :=
  match o.side with
  | .buy => (o.left * o.price, ap.quote)
  | .sell => (o.left, ap.base)

/-- Processing of one discovered open order in GateIOAPI.get_open_orders
(gateioapi.py lines 95-116): the encumbrance subtractions on lines 100
and 110 are commented out in the source, so the ledger is returned
unchanged; only the log amount is computed. -/
def gateioProcessOpenOrder (ap : AssetPair) (bals : Balances) (o : GateioOrder) :
    Balances :=
  let _ := gateioOpenOrderLog ap o
  bals

/-- Per-side market configuration (the market["sell"] / market["buy"]
dictionaries): rung count, percent of balance or fixed quote amount,
quadratic bump coefficients, and the close-order bump percents. -/
structure SideConfig where
  order_count : ℕ
  vol_percent : ℚ
  amount : ℚ
  pcnt_bump_a : ℚ
  pcnt_bump_c : ℚ
  rebuy_bump_percent : ℚ
  resell_bump_percent : ℚ
deriving DecidableEq, Repr

/-- One market entry of the configuration: pair name, the map of
minimum-ticker-field thresholds, and the two side configurations. -/
structure Market where
  pair : String
  mins : List (TickerField × ℚ)
  sell : SideConfig
  buy : SideConfig
deriving DecidableEq, Repr

/-- One computed ladder order with its paired closing order. -/
structure LadderOrder where
  side : Side
  price : ℚ
  volume : ℚ
  closeSide : Side
  closePrice : ℚ
deriving DecidableEq, Repr

/-- Errors raised by the batch computations before any order is built:
the sell-side hard floor on the unencumbered base balance, and the
Bot-variant buy-side check that the fixed amount fits the balance. -/
inductive BatchError
  | insufficientBase
  | insufficientQuote
deriving DecidableEq, Repr

/-- Rounding to d decimal places: round(x, d) in the source. -/
def roundTo (d : ℕ) (x : ℚ) : ℚ :=
  (round (x * 10 ^ d) : ℤ) / 10 ^ d

/-- vol_total = sum(math.sqrt(i) for i in range(1, N + 1)) with the
square root passed as the parameter s. -/
def volTotal (s : ℕ → ℚ) (n : ℕ) : ℚ :=
  ((List.range n).map (fun i => s (i + 1))).sum

/-- Sell price at rung n: round(base_price * (1 + pcnt_bump / 100),
dp_quote) with pcnt_bump = pcnt_bump_a * n^2 + pcnt_bump_c. -/
def sellBumpPrice (cfg : SideConfig) (ap : AssetPair) (base_price : ℚ) (n : ℕ) :
    ℚ :=
  roundTo ap.dp_quote
    (base_price * (1 + (cfg.pcnt_bump_a * (n : ℚ) ^ 2 + cfg.pcnt_bump_c) / 100))

/-- Buy price at rung n: round(base_price * (1 - pcnt_bump / 100),
dp_quote) with pcnt_bump = pcnt_bump_a * n^2 + pcnt_bump_c. -/
def buyBumpPrice (cfg : SideConfig) (ap : AssetPair) (base_price : ℚ) (n : ℕ) :
    ℚ :=
  roundTo ap.dp_quote
    (base_price * (1 - (cfg.pcnt_bump_a * (n : ℚ) ^ 2 + cfg.pcnt_bump_c) / 100))

/-- The sell order built for rung n in tick_sell_batch: limit price
p_sell, volume round(vol_mul * sqrt(n), dp_base), paired close buy at
round(p_sell * (1 - rebuy_bump_percent / 100), dp_quote). -/
def mkSellOrder (cfg : SideConfig) (ap : AssetPair) (vol_mul : ℚ)
    (base_price : ℚ) (s : ℕ → ℚ) (n : ℕ) : LadderOrder :=
  let p_sell := sellBumpPrice cfg ap base_price n
  { side := .sell
    price := p_sell
    volume := roundTo ap.dp_base (vol_mul * s n)
    closeSide := .buy
    closePrice := roundTo ap.dp_quote (p_sell * (1 - cfg.rebuy_bump_percent / 100)) }

/-- The buy order built for rung n in tick_buy_batch: limit price p_buy,
volume round(vol_mul * sqrt(n), dp_base), paired close sell at
round(p_buy * (1 + resell_bump_percent / 100), dp_quote). -/
def mkBuyOrder (cfg : SideConfig) (ap : AssetPair) (vol_mul : ℚ)
    (base_price : ℚ) (s : ℕ → ℚ) (n : ℕ) : LadderOrder :=
  let p_buy := buyBumpPrice cfg ap base_price n
  { side := .buy
    price := p_buy
    volume := roundTo ap.dp_base (vol_mul * s n)
    closeSide := .sell
    closePrice := roundTo ap.dp_quote (p_buy * (1 + cfg.resell_bump_percent / 100)) }

/-- Bot.tick_sell_batch (bot.py lines 325-408): skip if order_count is
zero; raise if the unencumbered base balance is below 0.001; otherwise
vol_mul = bal / vol_total * vol_percent / 100, reference price
max(ask, vwap, high), and one sell order per rung n = 1..N. -/
def botTickSellBatch (s : ℕ → ℚ) (market : Market) (ap : AssetPair)
    (bals : Balances) (t : Ticker) : Except BatchError (List LadderOrder) :=
  let cfg := market.sell
  if cfg.order_count = 0 then .ok []
  else
    let bal := (lookupBal bals ap.base).unencumbered
    if bal < 1 / 1000 then .error .insufficientBase
    else
      let vol_mul := bal / volTotal s cfg.order_count * cfg.vol_percent / 100
      let base_price := max t.ask (max t.vwap t.high)
      .ok ((List.range cfg.order_count).map
        (fun k => mkSellOrder cfg ap vol_mul base_price s (k + 1)))

/-- API.tick_sell_batch (api.py lines 160-232): same as the Bot variant
except that the reference price is the 24h high alone. -/
def apiTickSellBatch (s : ℕ → ℚ) (market : Market) (ap : AssetPair)
    (bals : Balances) (t : Ticker) : Except BatchError (List LadderOrder) :=
  let cfg := market.sell
  if cfg.order_count = 0 then .ok []
  else
    let bal := (lookupBal bals ap.base).unencumbered
    if bal < 1 / 1000 then .error .insufficientBase
    else
      let vol_mul := bal / volTotal s cfg.order_count * cfg.vol_percent / 100
      let base_price := t.high
      .ok ((List.range cfg.order_count).map
        (fun k => mkSellOrder cfg ap vol_mul base_price s (k + 1)))

/-- Bot.tick_buy_batch (bot.py lines 410-495): skip if order_count is
zero; raise if the fixed quote amount exceeds the unencumbered quote
balance; amt_base = amount / ticker.bid, vol_mul = amt_base / vol_total,
reference price min(bid, vwap, low), one buy order per rung; no guard
against non-positive prices. -/
def botTickBuyBatch (s : ℕ → ℚ) (market : Market) (ap : AssetPair)
    (bals : Balances) (t : Ticker) : Except BatchError (List LadderOrder) :=
  let cfg := market.buy
  if cfg.order_count = 0 then .ok []
  else
    let bal := (lookupBal bals ap.quote).unencumbered
    if cfg.amount > bal then .error .insufficientQuote
    else
      let amt_base := cfg.amount / t.bid
      let vol_mul := amt_base / volTotal s cfg.order_count
      let base_price := min t.bid (min t.vwap t.low)
      .ok ((List.range cfg.order_count).map
        (fun k => mkBuyOrder cfg ap vol_mul base_price s (k + 1)))

/-- API.tick_buy_batch (api.py lines 234-313): no balance precondition;
bal_base = unencumbered quote balance / ticker.bid, vol_mul = bal_base /
vol_total * vol_percent / 100, reference price the 24h low; a rung whose
rounded buy price is non-positive is skipped (logged and continued). -/
def apiTickBuyBatch (s : ℕ → ℚ) (market : Market) (ap : AssetPair)
    (bals : Balances) (t : Ticker) : Except BatchError (List LadderOrder) :=
  let cfg := market.buy
  if cfg.order_count = 0 then .ok []
  else
    let bal_quote := (lookupBal bals ap.quote).unencumbered
    let bal_base := bal_quote / t.bid
    let vol_mul := bal_base / volTotal s cfg.order_count * cfg.vol_percent / 100
    let base_price := t.low
    .ok ((List.range cfg.order_count).filterMap
      (fun k =>
        if buyBumpPrice cfg ap base_price (k + 1) ≤ 0 then none
        else some (mkBuyOrder cfg ap vol_mul base_price s (k + 1))))

/-- First entry of the minimum-field map whose ticker value is strictly
below the configured minimum, with the observed value (the guard loop of
Bot.tick, bot.py lines 313-319, and API.tick_market, api.py 148-154). -/
def firstGuardFail (t : Ticker) : List (TickerField × ℚ) →
    Option (TickerField × ℚ × ℚ)
  | [] => none
  | (f, mv) :: rest =>
    if t.get f < mv then some (f, t.get f, mv) else firstGuardFail t rest

/-- Result of one market tick: a guard skip with the reported failing
field, observed value and minimum; a raised batch error together with
the orders already submitted before it; or the two submitted batches. -/
inductive TickResult
  | skipped (field : TickerField) (val minv : ℚ)
  | failed (placedBefore : List LadderOrder) (e : BatchError)
  | placed (sellOrders buyOrders : List LadderOrder)
deriving DecidableEq, Repr

/-- Bot.tick (bot.py lines 306-323): fetch the ticker (passed in here),
check every minimum-field threshold and return immediately with no
orders when one fails, otherwise run the sell batch then the buy batch.
A sell-batch exception propagates before any order is submitted; a
buy-batch exception propagates after the sell orders were submitted. -/
def botTick (s : ℕ → ℚ) (market : Market) (ap : AssetPair) (bals : Balances)
    (t : Ticker) : TickResult :=
  match firstGuardFail t market.mins with
  | some (f, v, mv) => .skipped f v mv
  | none =>
    match botTickSellBatch s market ap bals t with
    | .error e => .failed [] e
    | .ok sells =>
      match botTickBuyBatch s market ap bals t with
      | .error e => .failed sells e
      | .ok buys => .placed sells buys

/-- API.tick_market (api.py lines 141-158): the same structure with the
API variants of the two batches. -/
def apiTickMarket (s : ℕ → ℚ) (market : Market) (ap : AssetPair)
    (bals : Balances) (t : Ticker) : TickResult :=
  match firstGuardFail t market.mins with
  | some (f, v, mv) => .skipped f v mv
  | none =>
    match apiTickSellBatch s market ap bals t with
    | .error e => .failed [] e
    | .ok sells =>
      match apiTickBuyBatch s market ap bals t with
      | .error e => .failed sells e
      | .ok buys => .placed sells buys

/-- Bot.tick with the balance ledger threaded explicitly: the bodies of
tick, tick_sell_batch, tick_buy_batch and place_orders contain no
assignment to self.balances, so the threaded ledger is returned exactly
as received. -/
def botTickSt (s : ℕ → ℚ) (market : Market) (ap : AssetPair) (bals : Balances)
    (t : Ticker) : TickResult × Balances :=
  (botTick s market ap bals t, bals)

/-- The per-market loop of Bot.loop (bot.py lines 207-216): each market
is ticked inside a try/except that logs and continues, so every market
produces exactly one TickResult and an exception in one market never
stops the enumeration. -/
def botTickAll (s : ℕ → ℚ) (pairs : String → AssetPair)
    (markets : List Market) (bals : Balances) (tickers : String → Ticker) :
    List TickResult :=
  markets.map (fun m => botTick s m (pairs m.pair) bals (tickers m.pair))

/-- The per-market loop with the ledger threaded from market to market,
mirroring the sequential mutation discipline of the source. -/
def botTickAllSt (s : ℕ → ℚ) (pairs : String → AssetPair) :
    List Market → Balances → (String → Ticker) →
    List TickResult × Balances
  | [], bals, _ => ([], bals)
  | m :: rest, bals, tickers =>
    let rb := botTickSt s m (pairs m.pair) bals (tickers m.pair)
    let rrest := botTickAllSt s pairs rest rb.2 tickers
    (rb.1 :: rrest.1, rrest.2)

/-- Decidable accuracy envelope for the square-root parameter: on the
rungs 1..N the parameter is positive and its square is within eps of the
argument.  The IEEE-754 double square root used by the source satisfies
this for any eps down to about 10 ^ (-15) on small arguments. -/
def sqrtAccurate (N : ℕ) (eps : ℚ) (s : ℕ → ℚ) : Prop :=
  ∀ n ∈ Finset.Icc 1 N, 0 < s n ∧ (s n) ^ 2 ≤ (n : ℚ) + eps ∧
    (n : ℚ) - eps ≤ (s n) ^ 2

instance (N : ℕ) (eps : ℚ) (s : ℕ → ℚ) : Decidable (sqrtAccurate N eps s) := by
  unfold sqrtAccurate
  infer_instance

/-! Helper lemmas. -/

theorem getElem?_range_map {β : Type} (f : ℕ → β) (N n : ℕ) (h1 : 1 ≤ n)
    (h2 : n ≤ N) : ((List.range N).map f)[n - 1]? = some (f (n - 1)) := by
  rw [List.getElem?_map, List.getElem?_range (by omega)]
  rfl

theorem sum_map_range (N : ℕ) (f : ℕ → ℚ) :
    ((List.range N).map f).sum = ∑ k in Finset.range N, f k := by
  induction N with
  | zero => rfl
  | succ n ih =>
    rw [List.range_succ n, Finset.sum_range_succ, List.map_append,
      List.sum_append, ih]
    simp

theorem volTotal_eq_sum_Icc (s : ℕ → ℚ) (N : ℕ) :
    volTotal s N = ∑ i in Finset.Icc 1 N, s i := by
  induction N with
  | zero => rfl
  | succ n ih =>
    rw [volTotal, List.range_succ n, List.map_append, List.sum_append,
      Finset.sum_Icc_succ_top (by omega) s, ← volTotal, ih]
    simp

theorem volTotal_pos (s : ℕ → ℚ) (N : ℕ) (hN : 1 ≤ N)
    (hpos : ∀ n ∈ Finset.Icc 1 N, 0 < s n) : 0 < volTotal s N := by
  rw [volTotal_eq_sum_Icc]
  exact Finset.sum_pos hpos (Finset.nonempty_Icc.mpr hN)

theorem abs_roundTo_sub_le (d : ℕ) (x : ℚ) :
    |roundTo d x - x| ≤ 1 / 2 * (1 / 10) ^ d := by
  have h10 : (0 : ℚ) < 10 ^ d := by positivity
  have hrw : roundTo d x - x =
      ((round (x * 10 ^ d) : ℚ) - x * 10 ^ d) / 10 ^ d := by
    rw [roundTo]
    field_simp
    ring
  rw [hrw, abs_div, abs_of_pos h10, abs_sub_comm, one_div_pow, mul_one_div]
  exact (div_le_div_iff_of_pos_right h10).mpr (abs_sub_round (x * 10 ^ d))

theorem filterMap_if_eq {β : Type} (l : List ℕ) (p : ℕ → Prop) [DecidablePred p]
    (g : ℕ → β) :
    l.filterMap (fun k => if p k then none else some (g k)) =
      (l.filter (fun k => decide ¬ p k)).map g := by
  induction l with
  | nil => rfl
  | cons a l ih =>
    by_cases h : p a <;> simp [h, ih]

theorem lookupBal_encumber_self (bals : Balances) (asset : String) (amt : ℚ)
    (h : hasAsset bals asset = true) :
    lookupBal (encumber bals asset amt) asset =
      ⟨(lookupBal bals asset).total,
       (lookupBal bals asset).unencumbered - amt⟩ := by
  induction bals with
  | nil => simp [hasAsset] at h
  | cons p rest ih =>
    obtain ⟨a, b⟩ := p
    by_cases hcase : a = asset
    · subst hcase
      simp [encumber, lookupBal]
    · simp [hasAsset, hcase] at h
      simp [encumber, lookupBal, hcase, ih h]

theorem lookupBal_encumber_total (bals : Balances) (asset x : String) (amt : ℚ) :
    (lookupBal (encumber bals asset amt) x).total = (lookupBal bals x).total := by
  induction bals with
  | nil => rfl
  | cons p rest ih =>
    obtain ⟨a, b⟩ := p
    by_cases hcase : a = asset
    · subst hcase
      by_cases hx : a = x
      · subst hx
        simp [encumber, lookupBal]
      · simp [encumber, lookupBal, hx, ih]
    · by_cases hx : a = x
      · subst hx
        simp [encumber, lookupBal, hcase]
      · simp [encumber, lookupBal, hcase, hx, ih]

theorem firstGuardFail_some (t : Ticker) (l : List (TickerField × ℚ))
    (h : ∃ fm ∈ l, t.get fm.1 < fm.2) :
    ∃ f v mv, firstGuardFail t l = some (f, v, mv) ∧ (f, mv) ∈ l ∧
      v = t.get f ∧ v < mv := by
  induction l with
  | nil => simp at h
  | cons p rest ih =>
    obtain ⟨a, mv⟩ := p
    by_cases hc : t.get a < mv
    · exact ⟨a, t.get a, mv, by simp [firstGuardFail, hc], by simp, rfl, hc⟩
    · obtain ⟨fm, hfm, hlt⟩ := h
      rcases List.mem_cons.mp hfm with heq | hmem
      · rw [heq] at hlt
        exact absurd hlt hc
      · obtain ⟨f, v, mv2, h1, h2, h3, h4⟩ := ih ⟨fm, hmem, hlt⟩
        exact ⟨f, v, mv2, by simp [firstGuardFail, hc, h1],
          by simp [h2], h3, h4⟩

theorem botTickSellBatch_ok (s : ℕ → ℚ) (market : Market) (ap : AssetPair)
    (bals : Balances) (t : Ticker) (hN : market.sell.order_count ≠ 0)
    (hbal : ¬ (lookupBal bals ap.base).unencumbered < 1 / 1000) :
    botTickSellBatch s market ap bals t =
      .ok ((List.range market.sell.order_count).map
        (fun k => mkSellOrder market.sell ap
          ((lookupBal bals ap.base).unencumbered
            / volTotal s market.sell.order_count
            * market.sell.vol_percent / 100)
          (max t.ask (max t.vwap t.high)) s (k + 1))) := by
  simp only [botTickSellBatch]
  rw [if_neg hN, if_neg hbal]

theorem apiTickSellBatch_ok (s : ℕ → ℚ) (market : Market) (ap : AssetPair)
    (bals : Balances) (t : Ticker) (hN : market.sell.order_count ≠ 0)
    (hbal : ¬ (lookupBal bals ap.base).unencumbered < 1 / 1000) :
    apiTickSellBatch s market ap bals t =
      .ok ((List.range market.sell.order_count).map
        (fun k => mkSellOrder market.sell ap
          ((lookupBal bals ap.base).unencumbered
            / volTotal s market.sell.order_count
            * market.sell.vol_percent / 100)
          t.high s (k + 1))) := by
  simp only [apiTickSellBatch]
  rw [if_neg hN, if_neg hbal]

theorem botTickBuyBatch_ok (s : ℕ → ℚ) (market : Market) (ap : AssetPair)
    (bals : Balances) (t : Ticker) (hN : market.buy.order_count ≠ 0)
    (hamt : ¬ market.buy.amount > (lookupBal bals ap.quote).unencumbered) :
    botTickBuyBatch s market ap bals t =
      .ok ((List.range market.buy.order_count).map
        (fun k => mkBuyOrder market.buy ap
          (market.buy.amount / t.bid / volTotal s market.buy.order_count)
          (min t.bid (min t.vwap t.low)) s (k + 1))) := by
  simp only [botTickBuyBatch]
  rw [if_neg hN, if_neg hamt]

theorem apiTickBuyBatch_ok (s : ℕ → ℚ) (market : Market) (ap : AssetPair)
    (bals : Balances) (t : Ticker) (hN : market.buy.order_count ≠ 0) :
    apiTickBuyBatch s market ap bals t =
      .ok ((List.range market.buy.order_count).filterMap
        (fun k =>
          if buyBumpPrice market.buy ap t.low (k + 1) ≤ 0 then none
          else some (mkBuyOrder market.buy ap
            ((lookupBal bals ap.quote).unencumbered / t.bid
              / volTotal s market.buy.order_count
              * market.buy.vol_percent / 100)
            t.low s (k + 1)))) := by
  simp only [apiTickBuyBatch]
  rw [if_neg hN]

theorem filterMap_eq_map_of_all {β γ : Type} (l : List β) (q : β → Prop)
    [DecidablePred q] (g : β → γ) (h : ∀ x ∈ l, ¬ q x) :
    l.filterMap (fun x => if q x then none else some (g x)) = l.map g := by
  induction l with
  | nil => rfl
  | cons a l ih =>
    simp only [List.filterMap_cons, List.map_cons]
    rw [if_neg (h a (by simp))]
    rw [ih (fun x hx => h x (by simp [hx]))]

theorem apiTickBuyBatch_ok_pos (s : ℕ → ℚ) (market : Market) (ap : AssetPair)
    (bals : Balances) (t : Ticker) (hN : market.buy.order_count ≠ 0)
    (hpos : ∀ n ∈ Finset.Icc 1 market.buy.order_count,
      0 < buyBumpPrice market.buy ap t.low n) :
    apiTickBuyBatch s market ap bals t =
      .ok ((List.range market.buy.order_count).map
        (fun k => mkBuyOrder market.buy ap
          ((lookupBal bals ap.quote).unencumbered / t.bid
            / volTotal s market.buy.order_count
            * market.buy.vol_percent / 100)
          t.low s (k + 1))) := by
  rw [apiTickBuyBatch_ok s market ap bals t hN]
  congr 1
  exact filterMap_eq_map_of_all (List.range market.buy.order_count)
    (fun k => buyBumpPrice market.buy ap t.low (k + 1) ≤ 0)
    (fun k => mkBuyOrder market.buy ap
      ((lookupBal bals ap.quote).unencumbered / t.bid
        / volTotal s market.buy.order_count
        * market.buy.vol_percent / 100)
      t.low s (k + 1))
    (fun k hk => not_le_of_lt (hpos (k + 1) (by
      rw [Finset.mem_Icc]
      rw [List.mem_range] at hk
      omega)))

/-! Witness fixtures: concrete configuration, pair, ledger and ticker
used to evaluate the claim theorems on explicit inputs. -/

/-- A concrete stand-in for the square-root parameter. -/
def sFix : ℕ → ℚ := fun n => (n : ℚ)

def apFix : AssetPair :=
  { id := "XXBTZUSD", base := "XXBT", quote := "ZUSD",
    dp_base := 8, dp_quote := 1 }

def sellFix : SideConfig :=
  { order_count := 2, vol_percent := 50, amount := 0, pcnt_bump_a := 1 / 100,
    pcnt_bump_c := 1 / 10, rebuy_bump_percent := 1, resell_bump_percent := 0 }

def buyFix : SideConfig :=
  { order_count := 2, vol_percent := 50, amount := 10, pcnt_bump_a := 1 / 100,
    pcnt_bump_c := 1 / 10, rebuy_bump_percent := 0, resell_bump_percent := 1 }

def marketFix : Market :=
  { pair := "XXBTZUSD", mins := [], sell := sellFix, buy := buyFix }

def balsFix : Balances :=
  [("XXBT", ⟨10, 10⟩), ("ZUSD", ⟨100, 100⟩)]

def tickerFix : Ticker :=
  { ask := 121, bid := 120, high := 133, low := 110, vwap := 125,
    opn := 122, close := 121, vol := 40000 }

/-! Claim theorems. -/

/-- C1: for every market whose sell side has order_count N at least 1 and
whose unencumbered base balance passes the hard floor, both engine
variants set vol_total to the sum of sqrt(i) for i = 1..N and vol_mul to
(balance / vol_total) * (vol_percent / 100), emit exactly N sell orders
in ascending rung order, and give rung n the volume
round(vol_mul * sqrt(n), volume_decimals). -/
theorem claim1_sell_volume_ladder (s : ℕ → ℚ) (market : Market)
    (ap : AssetPair) (bals : Balances) (t : Ticker)
    (hN : 1 ≤ market.sell.order_count)
    (hbal : ¬ (lookupBal bals ap.base).unencumbered < 1 / 1000) :
    volTotal s market.sell.order_count =
      ∑ i in Finset.Icc 1 market.sell.order_count, s i ∧
    (∃ orders, botTickSellBatch s market ap bals t = .ok orders ∧
      orders.length = market.sell.order_count ∧
      ∀ n ∈ Finset.Icc 1 market.sell.order_count,
        ∃ o, orders[n - 1]? = some o ∧ o.side = Side.sell ∧
          o.volume = roundTo ap.dp_base
            ((lookupBal bals ap.base).unencumbered
              / volTotal s market.sell.order_count
              * (market.sell.vol_percent / 100) * s n)) ∧
    (∃ orders, apiTickSellBatch s market ap bals t = .ok orders ∧
      orders.length = market.sell.order_count ∧
      ∀ n ∈ Finset.Icc 1 market.sell.order_count,
        ∃ o, orders[n - 1]? = some o ∧ o.side = Side.sell ∧
          o.volume = roundTo ap.dp_base
            ((lookupBal bals ap.base).unencumbered
              / volTotal s market.sell.order_count
              * (market.sell.vol_percent / 100) * s n)) := by
  refine ⟨volTotal_eq_sum_Icc s _, ?_, ?_⟩
  · refine ⟨_, botTickSellBatch_ok s market ap bals t (by omega) hbal, by simp, ?_⟩
    intro n hn
    rw [Finset.mem_Icc] at hn
    refine ⟨_, getElem?_range_map _ _ _ hn.1 hn.2, by simp [mkSellOrder], ?_⟩
    have hsub : n - 1 + 1 = n := by omega
    simp only [mkSellOrder, hsub]
    congr 1
    ring
  · refine ⟨_, apiTickSellBatch_ok s market ap bals t (by omega) hbal, by simp, ?_⟩
    intro n hn
    rw [Finset.mem_Icc] at hn
    refine ⟨_, getElem?_range_map _ _ _ hn.1 hn.2, by simp [mkSellOrder], ?_⟩
    have hsub : n - 1 + 1 = n := by omega
    simp only [mkSellOrder, hsub]
    congr 1
    ring

/-- Witness for C1 at the concrete fixtures. -/
theorem claim1_witness :
    (1 ≤ marketFix.sell.order_count) ∧
    (¬ (lookupBal balsFix apFix.base).unencumbered < 1 / 1000) ∧
    (volTotal sFix marketFix.sell.order_count =
      ∑ i in Finset.Icc 1 marketFix.sell.order_count, sFix i ∧
    (∃ orders, botTickSellBatch sFix marketFix apFix balsFix tickerFix = .ok orders ∧
      orders.length = marketFix.sell.order_count ∧
      ∀ n ∈ Finset.Icc 1 marketFix.sell.order_count,
        ∃ o, orders[n - 1]? = some o ∧ o.side = Side.sell ∧
          o.volume = roundTo apFix.dp_base
            ((lookupBal balsFix apFix.base).unencumbered
              / volTotal sFix marketFix.sell.order_count
              * (marketFix.sell.vol_percent / 100) * sFix n)) ∧
    (∃ orders, apiTickSellBatch sFix marketFix apFix balsFix tickerFix = .ok orders ∧
      orders.length = marketFix.sell.order_count ∧
      ∀ n ∈ Finset.Icc 1 marketFix.sell.order_count,
        ∃ o, orders[n - 1]? = some o ∧ o.side = Side.sell ∧
          o.volume = roundTo apFix.dp_base
            ((lookupBal balsFix apFix.base).unencumbered
              / volTotal sFix marketFix.sell.order_count
              * (marketFix.sell.vol_percent / 100) * sFix n))) :=
  ⟨by decide, by norm_num [lookupBal, balsFix, apFix],
    claim1_sell_volume_ladder sFix marketFix apFix balsFix tickerFix
      (by decide) (by norm_num [lookupBal, balsFix, apFix])⟩

/-- C2: the sell-side reference price is max(ask, vwap, 24h high) in the
full-data variant and the 24h high alone in the minimal-data variant,
and the sell price at rung n is round(ref * (1 + (a n^2 + c) / 100),
price_decimals); the buy-side reference price is min(bid, vwap, 24h low),
or the 24h low alone, and the buy price at rung n is
round(ref * (1 - (a n^2 + c) / 100), price_decimals). -/
theorem claim2_reference_prices (s : ℕ → ℚ) (market : Market) (ap : AssetPair)
    (bals : Balances) (t : Ticker)
    (hNs : 1 ≤ market.sell.order_count)
    (hbal : ¬ (lookupBal bals ap.base).unencumbered < 1 / 1000)
    (hNb : 1 ≤ market.buy.order_count)
    (hamt : ¬ market.buy.amount > (lookupBal bals ap.quote).unencumbered)
    (hpos : ∀ n ∈ Finset.Icc 1 market.buy.order_count,
      0 < buyBumpPrice market.buy ap t.low n) :
    (∃ orders, botTickSellBatch s market ap bals t = .ok orders ∧
      ∀ n ∈ Finset.Icc 1 market.sell.order_count,
        ∃ o, orders[n - 1]? = some o ∧
          o.price = roundTo ap.dp_quote (max t.ask (max t.vwap t.high) *
            (1 + (market.sell.pcnt_bump_a * (n : ℚ) ^ 2
              + market.sell.pcnt_bump_c) / 100))) ∧
    (∃ orders, apiTickSellBatch s market ap bals t = .ok orders ∧
      ∀ n ∈ Finset.Icc 1 market.sell.order_count,
        ∃ o, orders[n - 1]? = some o ∧
          o.price = roundTo ap.dp_quote (t.high *
            (1 + (market.sell.pcnt_bump_a * (n : ℚ) ^ 2
              + market.sell.pcnt_bump_c) / 100))) ∧
    (∃ orders, botTickBuyBatch s market ap bals t = .ok orders ∧
      ∀ n ∈ Finset.Icc 1 market.buy.order_count,
        ∃ o, orders[n - 1]? = some o ∧
          o.price = roundTo ap.dp_quote (min t.bid (min t.vwap t.low) *
            (1 - (market.buy.pcnt_bump_a * (n : ℚ) ^ 2
              + market.buy.pcnt_bump_c) / 100))) ∧
    (∃ orders, apiTickBuyBatch s market ap bals t = .ok orders ∧
      ∀ n ∈ Finset.Icc 1 market.buy.order_count,
        ∃ o, orders[n - 1]? = some o ∧
          o.price = roundTo ap.dp_quote (t.low *
            (1 - (market.buy.pcnt_bump_a * (n : ℚ) ^ 2
              + market.buy.pcnt_bump_c) / 100))) := by
  refine ⟨?_, ?_, ?_, ?_⟩
  · refine ⟨_, botTickSellBatch_ok s market ap bals t (by omega) hbal, ?_⟩
    intro n hn
    rw [Finset.mem_Icc] at hn
    refine ⟨_, getElem?_range_map _ _ _ hn.1 hn.2, ?_⟩
    have hsub : n - 1 + 1 = n := by omega
    simp only [mkSellOrder, sellBumpPrice, hsub]
  · refine ⟨_, apiTickSellBatch_ok s market ap bals t (by omega) hbal, ?_⟩
    intro n hn
    rw [Finset.mem_Icc] at hn
    refine ⟨_, getElem?_range_map _ _ _ hn.1 hn.2, ?_⟩
    have hsub : n - 1 + 1 = n := by omega
    simp only [mkSellOrder, sellBumpPrice, hsub]
  · refine ⟨_, botTickBuyBatch_ok s market ap bals t (by omega) hamt, ?_⟩
    intro n hn
    rw [Finset.mem_Icc] at hn
    refine ⟨_, getElem?_range_map _ _ _ hn.1 hn.2, ?_⟩
    have hsub : n - 1 + 1 = n := by omega
    simp only [mkBuyOrder, buyBumpPrice, hsub]
  · refine ⟨_, apiTickBuyBatch_ok_pos s market ap bals t (by omega) hpos, ?_⟩
    intro n hn
    rw [Finset.mem_Icc] at hn
    refine ⟨_, getElem?_range_map _ _ _ hn.1 hn.2, ?_⟩
    have hsub : n - 1 + 1 = n := by omega
    simp only [mkBuyOrder, buyBumpPrice, hsub]

/-- Witness for C2 at the concrete fixtures. -/
theorem claim2_witness :
    (1 ≤ marketFix.sell.order_count) ∧
    (¬ (lookupBal balsFix apFix.base).unencumbered < 1 / 1000) ∧
    (1 ≤ marketFix.buy.order_count) ∧
    (¬ marketFix.buy.amount > (lookupBal balsFix apFix.quote).unencumbered) ∧
    (∀ n ∈ Finset.Icc 1 marketFix.buy.order_count,
      0 < buyBumpPrice marketFix.buy apFix tickerFix.low n) ∧
    ((∃ orders, botTickSellBatch sFix marketFix apFix balsFix tickerFix = .ok orders ∧
      ∀ n ∈ Finset.Icc 1 marketFix.sell.order_count,
        ∃ o, orders[n - 1]? = some o ∧
          o.price = roundTo apFix.dp_quote (max tickerFix.ask (max tickerFix.vwap tickerFix.high) *
            (1 + (marketFix.sell.pcnt_bump_a * (n : ℚ) ^ 2
              + marketFix.sell.pcnt_bump_c) / 100))) ∧
    (∃ orders, apiTickSellBatch sFix marketFix apFix balsFix tickerFix = .ok orders ∧
      ∀ n ∈ Finset.Icc 1 marketFix.sell.order_count,
        ∃ o, orders[n - 1]? = some o ∧
          o.price = roundTo apFix.dp_quote (tickerFix.high *
            (1 + (marketFix.sell.pcnt_bump_a * (n : ℚ) ^ 2
              + marketFix.sell.pcnt_bump_c) / 100))) ∧
    (∃ orders, botTickBuyBatch sFix marketFix apFix balsFix tickerFix = .ok orders ∧
      ∀ n ∈ Finset.Icc 1 marketFix.buy.order_count,
        ∃ o, orders[n - 1]? = some o ∧
          o.price = roundTo apFix.dp_quote (min tickerFix.bid (min tickerFix.vwap tickerFix.low) *
            (1 - (marketFix.buy.pcnt_bump_a * (n : ℚ) ^ 2
              + marketFix.buy.pcnt_bump_c) / 100))) ∧
    (∃ orders, apiTickBuyBatch sFix marketFix apFix balsFix tickerFix = .ok orders ∧
      ∀ n ∈ Finset.Icc 1 marketFix.buy.order_count,
        ∃ o, orders[n - 1]? = some o ∧
          o.price = roundTo apFix.dp_quote (tickerFix.low *
            (1 - (marketFix.buy.pcnt_bump_a * (n : ℚ) ^ 2
              + marketFix.buy.pcnt_bump_c) / 100)))) :=
  ⟨by decide, by norm_num [lookupBal, balsFix, apFix], by decide,
    by norm_num [show lookupBal balsFix apFix.quote = ⟨100, 100⟩ from rfl, marketFix, buyFix],
    by
      intro n hn
      rw [Finset.mem_Icc] at hn
      have h1 : 1 ≤ n := hn.1
      have h2 : n ≤ 2 := by simpa [marketFix, buyFix] using hn.2
      interval_cases n <;>
        norm_num [buyBumpPrice, roundTo, round_eq, marketFix, buyFix, apFix,
          tickerFix],
    claim2_reference_prices sFix marketFix apFix balsFix tickerFix
      (by decide) (by norm_num [lookupBal, balsFix, apFix]) (by decide)
      (by norm_num [show lookupBal balsFix apFix.quote = ⟨100, 100⟩ from rfl, marketFix, buyFix])
      (by
        intro n hn
        rw [Finset.mem_Icc] at hn
        have h1 : 1 ≤ n := hn.1
        have h2 : n ≤ 2 := by simpa [marketFix, buyFix] using hn.2
        interval_cases n <;>
          norm_num [buyBumpPrice, roundTo, round_eq, marketFix, buyFix, apFix,
            tickerFix])⟩

/-! Fixtures for the encumbrance claims: the spec example of one resting
buy order with remaining volume 5 at limit price 2 quoted in USD. -/

def apUsd : AssetPair :=
  { id := "BTC_USD", base := "BTC", quote := "USD", dp_base := 4, dp_quote := 2 }

def balsUsd : Balances :=
  [("USD", ⟨100, 100⟩), ("BTC", ⟨5, 5⟩)]

def openBuyFix : OpenOrder := { side := .buy, vol := 5, vol_exec := 0, price := 2 }

def openSellFix : OpenOrder := { side := .sell, vol := 3, vol_exec := 1, price := 2 }

def gateBuyFix : GateioOrder := { side := .buy, left := 5, price := 2 }

/-- Counterexample to C3 as stated: in the gate.io variant the
unencumbered quote balance is not decreased by remaining_volume times
limit_price; a resting buy with remaining volume 5 at price 2 leaves
USD unencumbered at 100 instead of 90, because the subtraction is
commented out in GateIOAPI.get_open_orders. -/
theorem claim3_counterexample :
    (lookupBal (gateioProcessOpenOrder apUsd balsUsd gateBuyFix) "USD").unencumbered ≠
      (lookupBal balsUsd "USD").unencumbered - gateBuyFix.left * gateBuyFix.price := by
  rw [show gateioProcessOpenOrder apUsd balsUsd gateBuyFix = balsUsd from rfl,
    show lookupBal balsUsd "USD" = ⟨100, 100⟩ from rfl,
    show gateBuyFix.left = 5 from rfl, show gateBuyFix.price = 2 from rfl]
  norm_num

/-- C3 amended: in the Kraken variants every discovered resting buy order
decreases the quote asset unencumbered balance by exactly
(vol - vol_exec) * price, every resting sell decreases the base asset
unencumbered balance by exactly vol - vol_exec, and total balances are
unchanged; the gate.io variant computes the amount for its log only and
leaves the ledger entirely unchanged. -/
theorem claim3_encumbrance (ap : AssetPair) (bals : Balances) (o : OpenOrder)
    (go : GateioOrder)
    (hq : hasAsset bals ap.quote = true) (hb : hasAsset bals ap.base = true) :
    (o.side = Side.buy →
      lookupBal (krakenEncumberOpenOrder ap bals o) ap.quote =
        ⟨(lookupBal bals ap.quote).total,
         (lookupBal bals ap.quote).unencumbered - (o.vol - o.vol_exec) * o.price⟩) ∧
    (o.side = Side.sell →
      lookupBal (krakenEncumberOpenOrder ap bals o) ap.base =
        ⟨(lookupBal bals ap.base).total,
         (lookupBal bals ap.base).unencumbered - (o.vol - o.vol_exec)⟩) ∧
    (∀ x, (lookupBal (krakenEncumberOpenOrder ap bals o) x).total =
      (lookupBal bals x).total) ∧
    gateioProcessOpenOrder ap bals go = bals := by
  obtain ⟨sd, v, ve, pr⟩ := o
  refine ⟨?_, ?_, ?_, rfl⟩
  · intro hside
    cases hside
    simp only [krakenEncumberOpenOrder]
    exact lookupBal_encumber_self bals ap.quote _ hq
  · intro hside
    cases hside
    simp only [krakenEncumberOpenOrder]
    exact lookupBal_encumber_self bals ap.base _ hb
  · intro x
    cases sd <;>
      simp only [krakenEncumberOpenOrder] <;>
      exact lookupBal_encumber_total bals _ x _

/-- Witness for the amended C3 at the spec example: a resting buy with
remaining volume 5 at limit price 2 reduces USD unencumbered by 10. -/
theorem claim3_witness :
    (hasAsset balsUsd apUsd.quote = true) ∧
    (hasAsset balsUsd apUsd.base = true) ∧
    ((openBuyFix.side = Side.buy →
      lookupBal (krakenEncumberOpenOrder apUsd balsUsd openBuyFix) apUsd.quote =
        ⟨(lookupBal balsUsd apUsd.quote).total,
         (lookupBal balsUsd apUsd.quote).unencumbered
           - (openBuyFix.vol - openBuyFix.vol_exec) * openBuyFix.price⟩) ∧
    (openBuyFix.side = Side.sell →
      lookupBal (krakenEncumberOpenOrder apUsd balsUsd openBuyFix) apUsd.base =
        ⟨(lookupBal balsUsd apUsd.base).total,
         (lookupBal balsUsd apUsd.base).unencumbered
           - (openBuyFix.vol - openBuyFix.vol_exec)⟩) ∧
    (∀ x, (lookupBal (krakenEncumberOpenOrder apUsd balsUsd openBuyFix) x).total =
      (lookupBal balsUsd x).total) ∧
    gateioProcessOpenOrder apUsd balsUsd gateBuyFix = balsUsd) :=
  ⟨rfl, rfl, claim3_encumbrance apUsd balsUsd openBuyFix gateBuyFix rfl rfl⟩

/-- Market fixture whose minimum map fails against the ticker fixture:
the configured minimum high is 200 but the snapshot high is 133. -/
def marketGuard : Market :=
  { pair := "XXBTZUSD", mins := [(TickerField.high, 200)],
    sell := sellFix, buy := buyFix }

/-- C4: when any configured minimum-ticker-field threshold is violated,
the whole market tick is skipped in both variants: the result is a
guard skip reporting a failing field with its observed value and
minimum, no batch is computed and no order is submitted, and the
threaded balance ledger is returned unchanged. -/
theorem claim4_guard_skip (s : ℕ → ℚ) (market : Market) (ap : AssetPair)
    (bals : Balances) (t : Ticker)
    (h : ∃ fm ∈ market.mins, t.get fm.1 < fm.2) :
    (∃ f v mv, botTick s market ap bals t = .skipped f v mv ∧
      (f, mv) ∈ market.mins ∧ v = t.get f ∧ v < mv) ∧
    (∃ f v mv, apiTickMarket s market ap bals t = .skipped f v mv ∧
      (f, mv) ∈ market.mins ∧ v = t.get f ∧ v < mv) ∧
    (botTickSt s market ap bals t).2 = bals := by
  obtain ⟨f, v, mv, h1, h2, h3, h4⟩ := firstGuardFail_some t market.mins h
  refine ⟨⟨f, v, mv, ?_, h2, h3, h4⟩, ⟨f, v, mv, ?_, h2, h3, h4⟩, rfl⟩
  · simp only [botTick, h1]
  · simp only [apiTickMarket, h1]

/-- Witness for C4 at the guard fixture. -/
theorem claim4_witness :
    (∃ fm ∈ marketGuard.mins, tickerFix.get fm.1 < fm.2) ∧
    ((∃ f v mv, botTick sFix marketGuard apFix balsFix tickerFix = .skipped f v mv ∧
      (f, mv) ∈ marketGuard.mins ∧ v = tickerFix.get f ∧ v < mv) ∧
    (∃ f v mv, apiTickMarket sFix marketGuard apFix balsFix tickerFix = .skipped f v mv ∧
      (f, mv) ∈ marketGuard.mins ∧ v = tickerFix.get f ∧ v < mv) ∧
    (botTickSt sFix marketGuard apFix balsFix tickerFix).2 = balsFix) :=
  ⟨by decide,
    claim4_guard_skip sFix marketGuard apFix balsFix tickerFix (by decide)⟩

/-- C7: with at least one sell rung configured, the sell batch of either
variant fails with the insufficient-balance error exactly when the
unencumbered base balance is below the hard minimum 0.001, failing
before any order is computed; the buy side enforces no symmetric floor:
the API variant always succeeds, and the Bot variant succeeds whenever
the fixed amount fits the unencumbered quote balance, however small that
balance is. -/
theorem claim7_balance_floor (s : ℕ → ℚ) (market : Market) (ap : AssetPair)
    (bals : Balances) (t : Ticker) (hN : 1 ≤ market.sell.order_count) :
    ((∃ e, botTickSellBatch s market ap bals t = .error e) ↔
      (lookupBal bals ap.base).unencumbered < 1 / 1000) ∧
    ((∃ e, apiTickSellBatch s market ap bals t = .error e) ↔
      (lookupBal bals ap.base).unencumbered < 1 / 1000) ∧
    (∃ os, apiTickBuyBatch s market ap bals t = .ok os) ∧
    (¬ market.buy.amount > (lookupBal bals ap.quote).unencumbered →
      ∃ os, botTickBuyBatch s market ap bals t = .ok os) := by
  have hN0 : market.sell.order_count ≠ 0 := by omega
  refine ⟨?_, ?_, ?_, ?_⟩
  · constructor
    · rintro ⟨e, he⟩
      by_contra hbal
      rw [botTickSellBatch_ok s market ap bals t hN0 hbal] at he
      simp at he
    · intro hbal
      refine ⟨.insufficientBase, ?_⟩
      simp only [botTickSellBatch]
      rw [if_neg hN0, if_pos hbal]
  · constructor
    · rintro ⟨e, he⟩
      by_contra hbal
      rw [apiTickSellBatch_ok s market ap bals t hN0 hbal] at he
      simp at he
    · intro hbal
      refine ⟨.insufficientBase, ?_⟩
      simp only [apiTickSellBatch]
      rw [if_neg hN0, if_pos hbal]
  · by_cases hb : market.buy.order_count = 0
    · exact ⟨[], by simp only [apiTickBuyBatch]; rw [if_pos hb]⟩
    · exact ⟨_, apiTickBuyBatch_ok s market ap bals t hb⟩
  · intro hamt
    by_cases hb : market.buy.order_count = 0
    · exact ⟨[], by simp only [botTickBuyBatch]; rw [if_pos hb]⟩
    · exact ⟨_, botTickBuyBatch_ok s market ap bals t hb hamt⟩

/-- Witness for C7 at the concrete fixtures. -/
theorem claim7_witness :
    (1 ≤ marketFix.sell.order_count) ∧
    (((∃ e, botTickSellBatch sFix marketFix apFix balsFix tickerFix = .error e) ↔
      (lookupBal balsFix apFix.base).unencumbered < 1 / 1000) ∧
    ((∃ e, apiTickSellBatch sFix marketFix apFix balsFix tickerFix = .error e) ↔
      (lookupBal balsFix apFix.base).unencumbered < 1 / 1000) ∧
    (∃ os, apiTickBuyBatch sFix marketFix apFix balsFix tickerFix = .ok os) ∧
    (¬ marketFix.buy.amount > (lookupBal balsFix apFix.quote).unencumbered →
      ∃ os, botTickBuyBatch sFix marketFix apFix balsFix tickerFix = .ok os)) :=
  ⟨by decide,
    claim7_balance_floor sFix marketFix apFix balsFix tickerFix (by decide)⟩

/-! Fixtures for the buy-side conversion claim: a ticker whose vwap is
well below its bid, so the buy reference price differs from the bid. -/

def ticker5 : Ticker :=
  { ask := 11, bid := 10, high := 12, low := 8, vwap := 5,
    opn := 9, close := 9, vol := 1000 }

def buy5 : SideConfig :=
  { order_count := 1, vol_percent := 50, amount := 100, pcnt_bump_a := 0,
    pcnt_bump_c := 0, rebuy_bump_percent := 0, resell_bump_percent := 0 }

def market5 : Market :=
  { pair := "BTC_USD", mins := [], sell := sellFix, buy := buy5 }

def bals5 : Balances :=
  [("USD", ⟨1000, 1000⟩), ("BTC", ⟨5, 5⟩)]

/-- Counterexample to C5 as stated: with bid 10, vwap 5 and low 8 the buy
reference price is 5, but the engine converts the fixed quote amount 100
with the bid: the only rung gets volume round(100 / 10 / 1) = 10, not
round(100 / 5 / 1) = 20. -/
theorem claim5_counterexample :
    ∃ os o, botTickBuyBatch sFix market5 apUsd bals5 ticker5 = .ok os ∧
      os[0]? = some o ∧
      o.volume ≠ roundTo apUsd.dp_base
        (market5.buy.amount / min ticker5.bid (min ticker5.vwap ticker5.low)
          / volTotal sFix market5.buy.order_count * sFix 1) := by
  refine ⟨_, _, botTickBuyBatch_ok sFix market5 apUsd bals5 ticker5 (by decide)
    (by norm_num [show lookupBal bals5 apUsd.quote = ⟨1000, 1000⟩ from rfl,
      market5, buy5]), rfl, ?_⟩
  have hv : volTotal sFix 1 = 1 := by
    rw [volTotal, show List.range 1 = [0] from rfl]
    norm_num [sFix]
  norm_num [mkBuyOrder, roundTo, round_eq, market5, buy5, apUsd,
    ticker5, sFix, hv]

/-- C5 amended: on the buy side the quote-asset capital (the fixed
amount in the Bot variant, vol_percent of the unencumbered quote balance
in the API variant) is converted to a base-asset equivalent by dividing
by the current bid, ticker.bid, not by the buy-side reference price; the
reference price is used for pricing only. -/
theorem claim5_bid_conversion (s : ℕ → ℚ) (market : Market) (ap : AssetPair)
    (bals : Balances) (t : Ticker)
    (hNb : 1 ≤ market.buy.order_count)
    (hamt : ¬ market.buy.amount > (lookupBal bals ap.quote).unencumbered)
    (hpos : ∀ n ∈ Finset.Icc 1 market.buy.order_count,
      0 < buyBumpPrice market.buy ap t.low n) :
    (∃ os, botTickBuyBatch s market ap bals t = .ok os ∧
      ∀ n ∈ Finset.Icc 1 market.buy.order_count,
        ∃ o, os[n - 1]? = some o ∧
          o.volume = roundTo ap.dp_base
            (market.buy.amount / t.bid
              / volTotal s market.buy.order_count * s n)) ∧
    (∃ os, apiTickBuyBatch s market ap bals t = .ok os ∧
      ∀ n ∈ Finset.Icc 1 market.buy.order_count,
        ∃ o, os[n - 1]? = some o ∧
          o.volume = roundTo ap.dp_base
            ((lookupBal bals ap.quote).unencumbered / t.bid
              / volTotal s market.buy.order_count
              * (market.buy.vol_percent / 100) * s n)) := by
  refine ⟨?_, ?_⟩
  · refine ⟨_, botTickBuyBatch_ok s market ap bals t (by omega) hamt, ?_⟩
    intro n hn
    rw [Finset.mem_Icc] at hn
    refine ⟨_, getElem?_range_map _ _ _ hn.1 hn.2, ?_⟩
    have hsub : n - 1 + 1 = n := by omega
    simp only [mkBuyOrder, hsub]
  · refine ⟨_, apiTickBuyBatch_ok_pos s market ap bals t (by omega) hpos, ?_⟩
    intro n hn
    rw [Finset.mem_Icc] at hn
    refine ⟨_, getElem?_range_map _ _ _ hn.1 hn.2, ?_⟩
    have hsub : n - 1 + 1 = n := by omega
    simp only [mkBuyOrder, hsub]
    congr 1
    ring

/-- Witness for the amended C5 at the concrete fixtures. -/
theorem claim5_witness :
    (1 ≤ market5.buy.order_count) ∧
    (¬ market5.buy.amount > (lookupBal bals5 apUsd.quote).unencumbered) ∧
    (∀ n ∈ Finset.Icc 1 market5.buy.order_count,
      0 < buyBumpPrice market5.buy apUsd ticker5.low n) ∧
    ((∃ os, botTickBuyBatch sFix market5 apUsd bals5 ticker5 = .ok os ∧
      ∀ n ∈ Finset.Icc 1 market5.buy.order_count,
        ∃ o, os[n - 1]? = some o ∧
          o.volume = roundTo apUsd.dp_base
            (market5.buy.amount / ticker5.bid
              / volTotal sFix market5.buy.order_count * sFix n)) ∧
    (∃ os, apiTickBuyBatch sFix market5 apUsd bals5 ticker5 = .ok os ∧
      ∀ n ∈ Finset.Icc 1 market5.buy.order_count,
        ∃ o, os[n - 1]? = some o ∧
          o.volume = roundTo apUsd.dp_base
            ((lookupBal bals5 apUsd.quote).unencumbered / ticker5.bid
              / volTotal sFix market5.buy.order_count
              * (market5.buy.vol_percent / 100) * sFix n))) :=
  ⟨by decide,
    by norm_num [show lookupBal bals5 apUsd.quote = ⟨1000, 1000⟩ from rfl,
      market5, buy5],
    by
      intro n hn
      rw [Finset.mem_Icc] at hn
      have h1 : 1 ≤ n := hn.1
      have h2 : n ≤ 1 := by simpa [market5, buy5] using hn.2
      interval_cases n
      norm_num [buyBumpPrice, roundTo, round_eq, market5, buy5, apUsd, ticker5],
    claim5_bid_conversion sFix market5 apUsd bals5 ticker5 (by decide)
      (by norm_num [show lookupBal bals5 apUsd.quote = ⟨1000, 1000⟩ from rfl,
        market5, buy5])
      (by
        intro n hn
        rw [Finset.mem_Icc] at hn
        have h1 : 1 ≤ n := hn.1
        have h2 : n ≤ 1 := by simpa [market5, buy5] using hn.2
        interval_cases n
        norm_num [buyBumpPrice, roundTo, round_eq, market5, buy5, apUsd,
          ticker5])⟩

/-! Fixtures for the rounding-sum claim: a three-rung sell ladder with
volume_decimals 0, vol_percent 100 and unencumbered base balance 39.31,
together with a 14-digit rational approximation of the square root. -/

/-- Rational square-root values accurate to well below 10 ^ (-10) on the
arguments 1..3 (truncations of the real square roots to 14 places). -/
def sqrtC : ℕ → ℚ := fun n =>
  if n = 2 then 141421356237309 / 100000000000000
  else if n = 3 then 173205080756887 / 100000000000000
  else 1

def ap6 : AssetPair :=
  { id := "XBTUSD", base := "XBT", quote := "USD", dp_base := 0, dp_quote := 1 }

def sell6 : SideConfig :=
  { order_count := 3, vol_percent := 100, amount := 0, pcnt_bump_a := 1 / 100,
    pcnt_bump_c := 1 / 10, rebuy_bump_percent := 1, resell_bump_percent := 0 }

def market6 : Market :=
  { pair := "XBTUSD", mins := [], sell := sell6, buy := buyFix }

def bals6 : Balances :=
  [("XBT", ⟨3931 / 100, 3931 / 100⟩)]

/-- Counterexample to C6 as stated: with three rungs, volume_decimals 0,
vol_percent 100 and balance 39.31, the individually rounded volumes are
9, 13 and 16, summing to 38, while the target allocation is 39.31; the
difference 1.31 exceeds one rounding unit.  The square-root parameter
used is within 10 ^ (-10) of the real square root on every rung. -/
theorem claim6_counterexample :
    sqrtAccurate 3 (1 / 10 ^ 10) sqrtC ∧
    ∃ os, botTickSellBatch sqrtC market6 ap6 bals6 tickerFix = .ok os ∧
      ¬ |((os.map LadderOrder.volume).sum) -
          (lookupBal bals6 ap6.base).unencumbered
            * (market6.sell.vol_percent / 100)| ≤ (1 / 10 : ℚ) ^ ap6.dp_base := by
  constructor
  · intro n hn
    fin_cases hn <;> norm_num [sqrtC]
  · refine ⟨_, botTickSellBatch_ok sqrtC market6 ap6 bals6 tickerFix (by decide)
      (by norm_num [show lookupBal bals6 ap6.base = ⟨3931 / 100, 3931 / 100⟩ from rfl]),
      ?_⟩
    have hv : volTotal sqrtC 3 = 103656609248549 / 25000000000000 := by
      rw [volTotal, show List.range 3 = [0, 1, 2] from rfl]
      norm_num [sqrtC]
    rw [show List.range market6.sell.order_count = [0, 1, 2] from rfl]
    norm_num [mkSellOrder, roundTo, round_eq, market6, sell6, ap6, sqrtC, hv,
      show lookupBal bals6 "XBT" = ⟨3931 / 100, 3931 / 100⟩ from rfl]
    rw [abs_of_pos] <;> norm_num

theorem abs_sum_roundTo_sub_le (d : ℕ) (s : ℕ → ℚ) (N : ℕ) (vm : ℚ) :
    |(∑ k in Finset.range N, roundTo d (vm * s (k + 1))) - vm * volTotal s N|
      ≤ (N : ℚ) / 2 * (1 / 10) ^ d := by
  have hsum : ∑ k in Finset.range N, vm * s (k + 1) = vm * volTotal s N := by
    rw [← Finset.mul_sum, volTotal, sum_map_range]
  rw [← hsum, ← Finset.sum_sub_distrib]
  calc |∑ k in Finset.range N, (roundTo d (vm * s (k + 1)) - vm * s (k + 1))|
      ≤ ∑ k in Finset.range N, |roundTo d (vm * s (k + 1)) - vm * s (k + 1)| :=
        Finset.abs_sum_le_sum_abs _ _
    _ ≤ ∑ _k in Finset.range N, (1 / 2 * (1 / 10 : ℚ) ^ d) :=
        Finset.sum_le_sum (fun k _ => abs_roundTo_sub_le d (vm * s (k + 1)))
    _ = (N : ℚ) * (1 / 2 * (1 / 10) ^ d) := by
        rw [Finset.sum_const, Finset.card_range, nsmul_eq_mul]
    _ = (N : ℚ) / 2 * (1 / 10) ^ d := by ring

/-- C6 amended: with a positive square-root parameter the individually
rounded rung volumes of every ladder sum to within N / 2 rounding units
(not one rounding unit) of the target allocation: vol_percent / 100 of
the unencumbered base balance for the sell ladders of both variants,
the base-asset equivalent amount / bid of the fixed quote amount for
the Bot buy ladder, and vol_percent / 100 of the base-asset equivalent
of the unencumbered quote balance for the API buy ladder, the latter
provided every rounded buy price is positive so the skip guard drops no
rung; each rung contributes up to half a unit of rounding error. -/
theorem claim6_sum_bound (s : ℕ → ℚ) (market : Market) (ap : AssetPair)
    (bals : Balances) (t : Ticker)
    (hNs : 1 ≤ market.sell.order_count)
    (hNb : 1 ≤ market.buy.order_count)
    (hposS : ∀ n ∈ Finset.Icc 1 market.sell.order_count, 0 < s n)
    (hposB : ∀ n ∈ Finset.Icc 1 market.buy.order_count, 0 < s n)
    (hbal : ¬ (lookupBal bals ap.base).unencumbered < 1 / 1000)
    (hamt : ¬ market.buy.amount > (lookupBal bals ap.quote).unencumbered)
    (hpr : ∀ n ∈ Finset.Icc 1 market.buy.order_count,
      0 < buyBumpPrice market.buy ap t.low n) :
    (∃ os, botTickSellBatch s market ap bals t = .ok os ∧
      |((os.map LadderOrder.volume).sum) -
        (lookupBal bals ap.base).unencumbered * (market.sell.vol_percent / 100)|
        ≤ (market.sell.order_count : ℚ) / 2 * (1 / 10) ^ ap.dp_base) ∧
    (∃ os, apiTickSellBatch s market ap bals t = .ok os ∧
      |((os.map LadderOrder.volume).sum) -
        (lookupBal bals ap.base).unencumbered * (market.sell.vol_percent / 100)|
        ≤ (market.sell.order_count : ℚ) / 2 * (1 / 10) ^ ap.dp_base) ∧
    (∃ os, botTickBuyBatch s market ap bals t = .ok os ∧
      |((os.map LadderOrder.volume).sum) - market.buy.amount / t.bid|
        ≤ (market.buy.order_count : ℚ) / 2 * (1 / 10) ^ ap.dp_base) ∧
    (∃ os, apiTickBuyBatch s market ap bals t = .ok os ∧
      |((os.map LadderOrder.volume).sum) -
        (lookupBal bals ap.quote).unencumbered / t.bid
          * (market.buy.vol_percent / 100)|
        ≤ (market.buy.order_count : ℚ) / 2 * (1 / 10) ^ ap.dp_base) := by
  have hvtS : volTotal s market.sell.order_count ≠ 0 :=
    ne_of_gt (volTotal_pos s market.sell.order_count hNs hposS)
  have hvtB : volTotal s market.buy.order_count ≠ 0 :=
    ne_of_gt (volTotal_pos s market.buy.order_count hNb hposB)
  have hqS : ∀ q : ℚ, q / volTotal s market.sell.order_count
      * market.sell.vol_percent / 100 * volTotal s market.sell.order_count
      = q * (market.sell.vol_percent / 100) := by
    intro q
    field_simp
    ring
  have hqB : ∀ q : ℚ, q / volTotal s market.buy.order_count
      * market.buy.vol_percent / 100 * volTotal s market.buy.order_count
      = q * (market.buy.vol_percent / 100) := by
    intro q
    field_simp
    ring
  refine ⟨?_, ?_, ?_, ?_⟩
  · refine ⟨_, botTickSellBatch_ok s market ap bals t (by omega) hbal, ?_⟩
    have hm : (((List.range market.sell.order_count).map
        (fun k => mkSellOrder market.sell ap
          ((lookupBal bals ap.base).unencumbered
            / volTotal s market.sell.order_count
            * market.sell.vol_percent / 100)
          (max t.ask (max t.vwap t.high)) s (k + 1))).map
          LadderOrder.volume).sum =
        ∑ k in Finset.range market.sell.order_count, roundTo ap.dp_base
          ((lookupBal bals ap.base).unencumbered
            / volTotal s market.sell.order_count
            * market.sell.vol_percent / 100 * s (k + 1)) := by
      rw [List.map_map, ← sum_map_range]
      rfl
    rw [hm, ← hqS ((lookupBal bals ap.base).unencumbered)]
    exact abs_sum_roundTo_sub_le ap.dp_base s market.sell.order_count _
  · refine ⟨_, apiTickSellBatch_ok s market ap bals t (by omega) hbal, ?_⟩
    have hm : (((List.range market.sell.order_count).map
        (fun k => mkSellOrder market.sell ap
          ((lookupBal bals ap.base).unencumbered
            / volTotal s market.sell.order_count
            * market.sell.vol_percent / 100)
          t.high s (k + 1))).map LadderOrder.volume).sum =
        ∑ k in Finset.range market.sell.order_count, roundTo ap.dp_base
          ((lookupBal bals ap.base).unencumbered
            / volTotal s market.sell.order_count
            * market.sell.vol_percent / 100 * s (k + 1)) := by
      rw [List.map_map, ← sum_map_range]
      rfl
    rw [hm, ← hqS ((lookupBal bals ap.base).unencumbered)]
    exact abs_sum_roundTo_sub_le ap.dp_base s market.sell.order_count _
  · refine ⟨_, botTickBuyBatch_ok s market ap bals t (by omega) hamt, ?_⟩
    have hm : (((List.range market.buy.order_count).map
        (fun k => mkBuyOrder market.buy ap
          (market.buy.amount / t.bid / volTotal s market.buy.order_count)
          (min t.bid (min t.vwap t.low)) s (k + 1))).map
          LadderOrder.volume).sum =
        ∑ k in Finset.range market.buy.order_count, roundTo ap.dp_base
          (market.buy.amount / t.bid / volTotal s market.buy.order_count
            * s (k + 1)) := by
      rw [List.map_map, ← sum_map_range]
      rfl
    have hq : market.buy.amount / t.bid / volTotal s market.buy.order_count
        * volTotal s market.buy.order_count = market.buy.amount / t.bid :=
      div_mul_cancel₀ (market.buy.amount / t.bid) hvtB
    rw [hm]
    nth_rewrite 2 [← hq]
    exact abs_sum_roundTo_sub_le ap.dp_base s market.buy.order_count _
  · refine ⟨_, apiTickBuyBatch_ok_pos s market ap bals t (by omega) hpr, ?_⟩
    have hm : (((List.range market.buy.order_count).map
        (fun k => mkBuyOrder market.buy ap
          ((lookupBal bals ap.quote).unencumbered / t.bid
            / volTotal s market.buy.order_count
            * market.buy.vol_percent / 100)
          t.low s (k + 1))).map LadderOrder.volume).sum =
        ∑ k in Finset.range market.buy.order_count, roundTo ap.dp_base
          ((lookupBal bals ap.quote).unencumbered / t.bid
            / volTotal s market.buy.order_count
            * market.buy.vol_percent / 100 * s (k + 1)) := by
      rw [List.map_map, ← sum_map_range]
      rfl
    rw [hm, ← hqB ((lookupBal bals ap.quote).unencumbered / t.bid)]
    exact abs_sum_roundTo_sub_le ap.dp_base s market.buy.order_count _

/-- Witness for the amended C6 at the concrete fixtures. -/
theorem claim6_witness :
    (1 ≤ marketFix.sell.order_count) ∧
    (1 ≤ marketFix.buy.order_count) ∧
    (∀ n ∈ Finset.Icc 1 marketFix.sell.order_count, 0 < sFix n) ∧
    (∀ n ∈ Finset.Icc 1 marketFix.buy.order_count, 0 < sFix n) ∧
    (¬ (lookupBal balsFix apFix.base).unencumbered < 1 / 1000) ∧
    (¬ marketFix.buy.amount > (lookupBal balsFix apFix.quote).unencumbered) ∧
    (∀ n ∈ Finset.Icc 1 marketFix.buy.order_count,
      0 < buyBumpPrice marketFix.buy apFix tickerFix.low n) ∧
    ((∃ os, botTickSellBatch sFix marketFix apFix balsFix tickerFix = .ok os ∧
      |((os.map LadderOrder.volume).sum) -
        (lookupBal balsFix apFix.base).unencumbered
          * (marketFix.sell.vol_percent / 100)|
        ≤ (marketFix.sell.order_count : ℚ) / 2 * (1 / 10) ^ apFix.dp_base) ∧
    (∃ os, apiTickSellBatch sFix marketFix apFix balsFix tickerFix = .ok os ∧
      |((os.map LadderOrder.volume).sum) -
        (lookupBal balsFix apFix.base).unencumbered
          * (marketFix.sell.vol_percent / 100)|
        ≤ (marketFix.sell.order_count : ℚ) / 2 * (1 / 10) ^ apFix.dp_base) ∧
    (∃ os, botTickBuyBatch sFix marketFix apFix balsFix tickerFix = .ok os ∧
      |((os.map LadderOrder.volume).sum) - marketFix.buy.amount / tickerFix.bid|
        ≤ (marketFix.buy.order_count : ℚ) / 2 * (1 / 10) ^ apFix.dp_base) ∧
    (∃ os, apiTickBuyBatch sFix marketFix apFix balsFix tickerFix = .ok os ∧
      |((os.map LadderOrder.volume).sum) -
        (lookupBal balsFix apFix.quote).unencumbered / tickerFix.bid
          * (marketFix.buy.vol_percent / 100)|
        ≤ (marketFix.buy.order_count : ℚ) / 2 * (1 / 10) ^ apFix.dp_base)) :=
  ⟨by decide, by decide,
    by
      intro n hn
      rw [Finset.mem_Icc] at hn
      simp only [sFix]
      exact_mod_cast hn.1,
    by
      intro n hn
      rw [Finset.mem_Icc] at hn
      simp only [sFix]
      exact_mod_cast hn.1,
    by norm_num [show lookupBal balsFix apFix.base = ⟨10, 10⟩ from rfl],
    by norm_num [show lookupBal balsFix apFix.quote = ⟨100, 100⟩ from rfl,
      marketFix, buyFix],
    by
      intro n hn
      rw [Finset.mem_Icc] at hn
      have h1 : 1 ≤ n := hn.1
      have h2 : n ≤ 2 := by simpa [marketFix, buyFix] using hn.2
      interval_cases n <;>
        norm_num [buyBumpPrice, roundTo, round_eq, marketFix, buyFix, apFix,
          tickerFix],
    claim6_sum_bound sFix marketFix apFix balsFix tickerFix (by decide)
      (by decide)
      (by
        intro n hn
        rw [Finset.mem_Icc] at hn
        simp only [sFix]
        exact_mod_cast hn.1)
      (by
        intro n hn
        rw [Finset.mem_Icc] at hn
        simp only [sFix]
        exact_mod_cast hn.1)
      (by norm_num [show lookupBal balsFix apFix.base = ⟨10, 10⟩ from rfl])
      (by norm_num [show lookupBal balsFix apFix.quote = ⟨100, 100⟩ from rfl,
        marketFix, buyFix])
      (by
        intro n hn
        rw [Finset.mem_Icc] at hn
        have h1 : 1 ≤ n := hn.1
        have h2 : n ≤ 2 := by simpa [marketFix, buyFix] using hn.2
        interval_cases n <;>
          norm_num [buyBumpPrice, roundTo, round_eq, marketFix, buyFix, apFix,
            tickerFix])⟩

/-! Fixtures for the non-positive-price claim: a buy configuration whose
constant bump of 200 percent drives every computed buy price negative. -/

def buy8 : SideConfig :=
  { order_count := 1, vol_percent := 50, amount := 100, pcnt_bump_a := 0,
    pcnt_bump_c := 200, rebuy_bump_percent := 0, resell_bump_percent := 0 }

def market8 : Market :=
  { pair := "BTC_USD", mins := [], sell := sellFix, buy := buy8 }

/-- Counterexample to C8 as stated: the Bot-variant buy ladder has no
per-rung guard; with a 200 percent constant bump its only rung gets the
negative price round(5 * (1 - 2)) = -5 and is still emitted instead of
being skipped. -/
theorem claim8_counterexample :
    ∃ os o, botTickBuyBatch sFix market8 apUsd bals5 ticker5 = .ok os ∧
      os[0]? = some o ∧ o.price ≤ 0 := by
  refine ⟨_, _, botTickBuyBatch_ok sFix market8 apUsd bals5 ticker5 (by decide)
    (by norm_num [show lookupBal bals5 apUsd.quote = ⟨1000, 1000⟩ from rfl,
      market8, buy8]), rfl, ?_⟩
  norm_num [mkBuyOrder, buyBumpPrice, roundTo, round_eq, market8, buy8, apUsd,
    ticker5]

/-- C8 amended: only the minimal-data API variant skips a rung whose
rounded buy price is non-positive; there the batch is never aborted, the
emitted orders are exactly the rungs with positive rounded price in
ascending rung order, and every emitted price is positive, while the
sell side of both variants emits all order_count rungs with no such
per-rung guard (and the Bot-variant buy ladder, per the counterexample,
has no guard either). -/
theorem claim8_skip_guard (s : ℕ → ℚ) (market : Market) (ap : AssetPair)
    (bals : Balances) (t : Ticker)
    (hNb : 1 ≤ market.buy.order_count)
    (hNs : 1 ≤ market.sell.order_count)
    (hbal : ¬ (lookupBal bals ap.base).unencumbered < 1 / 1000) :
    (∃ os, apiTickBuyBatch s market ap bals t = .ok os ∧
      os = ((List.range market.buy.order_count).filter
          (fun k => decide (0 < buyBumpPrice market.buy ap t.low (k + 1)))).map
        (fun k => mkBuyOrder market.buy ap
          ((lookupBal bals ap.quote).unencumbered / t.bid
            / volTotal s market.buy.order_count
            * market.buy.vol_percent / 100)
          t.low s (k + 1)) ∧
      ∀ o ∈ os, 0 < o.price) ∧
    (∃ os, botTickSellBatch s market ap bals t = .ok os ∧
      os.length = market.sell.order_count) ∧
    (∃ os, apiTickSellBatch s market ap bals t = .ok os ∧
      os.length = market.sell.order_count) := by
  refine ⟨?_, ?_, ?_⟩
  · refine ⟨_, apiTickBuyBatch_ok s market ap bals t (by omega), ?_, ?_⟩
    · rw [filterMap_if_eq (List.range market.buy.order_count)
        (fun k => buyBumpPrice market.buy ap t.low (k + 1) ≤ 0)
        (fun k => mkBuyOrder market.buy ap
          ((lookupBal bals ap.quote).unencumbered / t.bid
            / volTotal s market.buy.order_count
            * market.buy.vol_percent / 100)
          t.low s (k + 1))]
      simp only [not_le]
    · intro o ho
      rw [filterMap_if_eq (List.range market.buy.order_count)
        (fun k => buyBumpPrice market.buy ap t.low (k + 1) ≤ 0)
        (fun k => mkBuyOrder market.buy ap
          ((lookupBal bals ap.quote).unencumbered / t.bid
            / volTotal s market.buy.order_count
            * market.buy.vol_percent / 100)
          t.low s (k + 1))] at ho
      rw [List.mem_map] at ho
      obtain ⟨k, hk, rfl⟩ := ho
      rw [List.mem_filter] at hk
      have hp := of_decide_eq_true hk.2
      rw [not_le] at hp
      simpa [mkBuyOrder] using hp
  · exact ⟨_, botTickSellBatch_ok s market ap bals t (by omega) hbal, by simp⟩
  · exact ⟨_, apiTickSellBatch_ok s market ap bals t (by omega) hbal, by simp⟩

/-- Witness for the amended C8 at the concrete fixtures. -/
theorem claim8_witness :
    (1 ≤ marketFix.buy.order_count) ∧
    (1 ≤ marketFix.sell.order_count) ∧
    (¬ (lookupBal balsFix apFix.base).unencumbered < 1 / 1000) ∧
    ((∃ os, apiTickBuyBatch sFix marketFix apFix balsFix tickerFix = .ok os ∧
      os = ((List.range marketFix.buy.order_count).filter
          (fun k => decide (0 < buyBumpPrice marketFix.buy apFix tickerFix.low (k + 1)))).map
        (fun k => mkBuyOrder marketFix.buy apFix
          ((lookupBal balsFix apFix.quote).unencumbered / tickerFix.bid
            / volTotal sFix marketFix.buy.order_count
            * marketFix.buy.vol_percent / 100)
          tickerFix.low sFix (k + 1)) ∧
      ∀ o ∈ os, 0 < o.price) ∧
    (∃ os, botTickSellBatch sFix marketFix apFix balsFix tickerFix = .ok os ∧
      os.length = marketFix.sell.order_count) ∧
    (∃ os, apiTickSellBatch sFix marketFix apFix balsFix tickerFix = .ok os ∧
      os.length = marketFix.sell.order_count)) :=
  ⟨by decide, by decide,
    by norm_num [show lookupBal balsFix apFix.base = ⟨10, 10⟩ from rfl],
    claim8_skip_guard sFix marketFix apFix balsFix tickerFix (by decide)
      (by decide)
      (by norm_num [show lookupBal balsFix apFix.base = ⟨10, 10⟩ from rfl])⟩

/-! Fixtures for the scheduler claims: two markets of which the first
fails (its base asset is absent from the ledger, so its sell batch
raises the insufficient-balance error) while the second succeeds. -/

def marketFail : Market :=
  { pair := "BTC_USD", mins := [], sell := sellFix, buy := buyFix }

def marketsW : List Market := [marketFail, marketFix]

def pairsW : String → AssetPair := fun p =>
  if p = "BTC_USD" then apUsd else apFix

def tickersW : String → Ticker := fun _ => tickerFix

/-- C9: every market in a cycle produces exactly one outcome, and the
outcome of each market is determined by that market alone against the
cycle state: an exception in one market is caught at the per-market
boundary (it becomes a failed outcome) and the remaining markets of the
cycle are still processed. -/
theorem claim9_market_isolation (s : ℕ → ℚ) (pairs : String → AssetPair)
    (markets : List Market) (bals : Balances) (tickers : String → Ticker)
    (i : ℕ) (hi : i < markets.length) :
    (botTickAll s pairs markets bals tickers).length = markets.length ∧
    (botTickAll s pairs markets bals tickers)[i]? =
      some (botTick s markets[i] (pairs markets[i].pair) bals
        (tickers markets[i].pair)) := by
  constructor
  · simp [botTickAll]
  · rw [botTickAll, List.getElem?_map, List.getElem?_eq_getElem hi]
    rfl

/-- Witness for C9: in a cycle of two markets whose first fails, the
second market still produces its own outcome. -/
theorem claim9_witness :
    (1 < marketsW.length) ∧
    ((botTickAll sFix pairsW marketsW balsFix tickersW).length =
      marketsW.length ∧
    (botTickAll sFix pairsW marketsW balsFix tickersW)[1]? =
      some (botTick sFix (marketsW[1]) (pairsW (marketsW[1]).pair) balsFix
        (tickersW (marketsW[1]).pair))) :=
  ⟨by decide,
    claim9_market_isolation sFix pairsW marketsW balsFix tickersW 1 (by decide)⟩

/-- C10: the per-market tick never mutates the balance ledger: threading
the ledger through a whole cycle of markets returns it unchanged, and
every market of the cycle computes its outcome against the same original
ledger, so two markets sharing an asset size their ladders against the
same unencumbered figure, unreduced by the orders just placed for the
earlier market. -/
theorem claim10_ledger_frame (s : ℕ → ℚ) (pairs : String → AssetPair)
    (markets : List Market) (bals : Balances) (tickers : String → Ticker) :
    (botTickAllSt s pairs markets bals tickers).2 = bals ∧
    (botTickAllSt s pairs markets bals tickers).1 =
      markets.map (fun m => botTick s m (pairs m.pair) bals (tickers m.pair)) := by
  induction markets with
  | nil => exact ⟨rfl, rfl⟩
  | cons m rest ih =>
    simp only [botTickAllSt, botTickSt, List.map_cons]
    exact ⟨ih.1, by rw [ih.2]⟩

end Baibaibot
